import Mathlib

/-!
Verification of the download-orchestration core of a media downloader:
`core/downloader_base.py` (dedup index, time filter, asset resolution and
acquisition) and `core/user_downloader.py` (pagination loop and browser
fallback reconciliation), shallowly embedded in Lean.

Modelling conventions:
* Python strings that may be `None` are modelled as `String`, with `""`
  playing the role of the falsy/absent value (Python truthiness conflates
  `None` and `""` at every use site of these fields).
* Python dict lookups with defaults become structure fields holding the
  defaulted value; a field whose truthiness is tested separately from its
  content is an `Option`.
* External collaborators (persistent database, HTTP transport, URL signing,
  browser collector, the filesystem scan) are oracle parameters.
-/

set_option autoImplicit false

namespace Douyin

/-- Substring occurrence over character lists: Python's `pat in s`. -/
def hasSubList (pat : List Char) : List Char → Bool
  | [] => pat.isEmpty
  | c :: rest => pat.isPrefixOf (c :: rest) || hasSubList pat rest

/-- Python's substring test `pat in s` on strings. -/
def strContains (s pat : String) : Bool :=
  hasSubList pat.data s.data

/-- Drop everything up to and including the first `//` (the scheme/authority
separator searched by `urllib.parse.urlparse`); `none` when absent. -/
def dropToAuthority : List Char → Option (List Char)
  | [] => none
  | '/' :: '/' :: rest => some rest
  | _ :: rest => dropToAuthority rest

/-- The authority (`netloc`) component of a URL as `urlparse` reports it:
the run after the first `//` up to a path, query or fragment delimiter. -/
def netlocOf (u : String) : String :=
  match dropToAuthority u.data with
  | none => ""
  | some rest => String.mk (rest.takeWhile fun c => !(c == '/' || c == '?' || c == '#'))

/-- Python's `s.endswith(pat)`. -/
def strEndsWith (s pat : String) : Bool :=
  List.isSuffixOf pat.data s.data

/-- One entry of a gallery's image list. `url_list = []` models a missing or
falsy `url_list` key (including the non-dict-entry case, which yields `None`). -/
structure ImageItem where
  url_list : List String := []
deriving DecidableEq

/-- One listing item (an "aweme" dict) restricted to the fields this core
reads. `image_post_info = none` models a missing *or empty (falsy)* dict;
`some imgs` a truthy dict whose `images` key holds `imgs` (with `[]` again
standing for a missing/falsy `images` key). `cover_url`, `music_url` and
`avatar_url` hold the result of `_extract_first_url` on the corresponding
payload (`""` = nothing extractable). -/
structure AwemeData where
  aweme_id : String := ""
  create_time : Int := 0
  author_sec_uid : String := ""
  image_post_info : Option (List ImageItem) := none
  images : List ImageItem := []
  video_url_list : List String := []
  video_uri : String := ""
  video_vid : String := ""
  video_download_uri : String := ""
  cover_url : String := ""
  music_url : String := ""
  avatar_url : String := ""
deriving DecidableEq

/-! ## Dedup index (`BaseDownloader._is_locally_downloaded`, `_should_download`,
`_mark_local_aweme_downloaded`)

The lazily built local index `self._local_aweme_ids` is threaded explicitly as
`Option (List String)` (`none` = not yet built).  The filesystem scan
`_build_local_aweme_index` is external state, passed as the `scan` parameter:
the identifiers the scan of the output tree would collect. -/

/-- `BaseDownloader._is_locally_downloaded`: falsy identifiers are never
locally present; otherwise build the index if needed and test membership.
Returns the decision together with the index state after the call. -/
def is_locally_downloaded (scan : List String) (st : Option (List String))
    (id : String) : Bool × Option (List String) :=
  if id = "" then (false, st)
  else
    match st with
    | some idx => (idx.contains id, some idx)
    | none => (scan.contains id, some scan)

/-- Persistent-store membership `database.is_downloaded`; `none` models a run
with no database configured, for which the store lookup never happens and
membership stays `False`. -/
def db_is_downloaded (db : Option (List String)) (id : String) : Bool :=
  match db with
  | none => false
  | some ids => ids.contains id

/-- `BaseDownloader._should_download`: the four-case dedup decision, returned
together with the local-index state after the call. -/
def should_download (db : Option (List String)) (scan : List String)
    (st : Option (List String)) (id : String) : Bool × Option (List String) :=
  let r := is_locally_downloaded scan st id
  let in_local := r.1
  let st2 := r.2
  let in_db := db_is_downloaded db id
  if in_db && in_local then (false, st2)
  else if in_db && !in_local then (true, st2)
  else if in_local then (false, st2)
  else (true, st2)

/-- `BaseDownloader._mark_local_aweme_downloaded`: record a fresh success in
the in-memory local-presence set (creating it when still unbuilt). -/
def mark_local_aweme_downloaded (st : Option (List String)) (id : String) :
    Option (List String) :=
  if id = "" then st
  else
    match st with
    | none => some (List.insert id [])
    | some idx => some (List.insert id idx)

/-- C1: `_should_download` decides exactly per the dedup matrix — in store and
present locally: skip; in store only: re-download; locally only: skip;
neither: download — and with no database configured store membership is
treated as absent. -/
theorem C1_should_download_matrix (db : Option (List String)) (scan : List String)
    (st : Option (List String)) (id : String) :
    (should_download db scan st id).1 =
      (match db_is_downloaded db id, (is_locally_downloaded scan st id).1 with
        | true, true => false
        | true, false => true
        | false, true => false
        | false, false => true)
    ∧ db_is_downloaded none id = false := by
  refine ⟨?_, rfl⟩
  unfold should_download
  cases hdb : db_is_downloaded db id <;>
    cases hloc : (is_locally_downloaded scan st id).1 <;>
      simp [hdb, hloc]

/-! ## Time filter (`BaseDownloader._filter_by_time`)

`start_time`/`end_time` come from the configuration (`""` = unset).
`parse_ts` is the external clock/locale oracle: the integer value of
`datetime.strptime(s, "%Y-%m-%d").timestamp()`, i.e. the start-of-day
instant of the date `s`. -/

/-- The `for`/`continue` body of `_filter_by_time`: drop an item when a
configured start bound exceeds its `create_time`, then when its
`create_time` exceeds a configured end bound; keep it otherwise. -/
def filter_by_time_loop (parse_ts : String → Int) (start_time end_time : String) :
    List AwemeData → List AwemeData
  | [] => []
  | a :: rest =>
    if start_time ≠ "" ∧ a.create_time < parse_ts start_time then
      filter_by_time_loop parse_ts start_time end_time rest
    else if end_time ≠ "" ∧ a.create_time > parse_ts end_time then
      filter_by_time_loop parse_ts start_time end_time rest
    else a :: filter_by_time_loop parse_ts start_time end_time rest

/-- `BaseDownloader._filter_by_time`: identity when neither bound is
configured, else the filtering loop. -/
def filter_by_time (parse_ts : String → Int) (start_time end_time : String)
    (aweme_list : List AwemeData) : List AwemeData :=
  if start_time = "" ∧ end_time = "" then aweme_list
  else filter_by_time_loop parse_ts start_time end_time aweme_list

/-- The inclusive-timestamp range predicate the filter turns out to compute:
each configured bound is the start-of-day instant of its date, and both
comparisons are inclusive at that instant. -/
def in_time_range (parse_ts : String → Int) (start_time end_time : String)
    (a : AwemeData) : Bool :=
  decide ((start_time = "" ∨ parse_ts start_time ≤ a.create_time)
    ∧ (end_time = "" ∨ a.create_time ≤ parse_ts end_time))

theorem filter_by_time_loop_eq (parse_ts : String → Int)
    (start_time end_time : String) (l : List AwemeData) :
    filter_by_time_loop parse_ts start_time end_time l =
      l.filter (in_time_range parse_ts start_time end_time) := by
  induction l with
  | nil => rfl
  | cons a rest ih =>
    simp only [filter_by_time_loop, List.filter_cons]
    by_cases h1 : start_time ≠ "" ∧ a.create_time < parse_ts start_time
    · have hd : in_time_range parse_ts start_time end_time a = false := by
        simp only [in_time_range, decide_eq_false_iff_not]
        rintro ⟨hs | hs, -⟩
        · exact h1.1 hs
        · exact absurd h1.2 (not_lt.mpr hs)
      rw [if_pos h1, ih, hd]
      simp
    · rw [if_neg h1]
      by_cases h2 : end_time ≠ "" ∧ a.create_time > parse_ts end_time
      · have hd : in_time_range parse_ts start_time end_time a = false := by
          simp only [in_time_range, decide_eq_false_iff_not]
          rintro ⟨-, he | he⟩
          · exact h2.1 he
          · exact absurd h2.2 (not_lt.mpr he)
        rw [if_pos h2, ih, hd]
        simp
      · have hd : in_time_range parse_ts start_time end_time a = true := by
          push_neg at h1 h2
          simp only [in_time_range, decide_eq_true_eq]
          constructor
          · by_cases hs : start_time = ""
            · exact Or.inl hs
            · exact Or.inr (h1 hs)
          · by_cases he : end_time = ""
            · exact Or.inl he
            · exact Or.inr (h2 he)
        rw [if_neg h2, ih, hd]
        simp

/-- C9 counterexample: the claim "every item created at any time on the end
date is kept" fails.  With `end_time = "1970-01-02"`, whose start-of-day
timestamp (UTC `strptime`) is 86400, an item created at timestamp 86401 —
one second into the end date, since 86400 ≤ 86401 < 86400 + 86400 — is
dropped by `_filter_by_time`. -/
theorem C9_end_date_item_dropped :
    filter_by_time (fun s => if s = "1970-01-02" then 86400 else 0)
        "" "1970-01-02" [{ create_time := 86401 }] = []
      ∧ (86400 : Int) ≤ 86401 ∧ (86401 : Int) < 86400 + 86400 := by
  exact ⟨rfl, by norm_num, by norm_num⟩

/-- C9 (amended): `_filter_by_time` is an inclusive filter at the *timestamp*
level, both bounds being the start-of-day instant of their configured date:
with a bound configured, an item is kept exactly when that instant bounds its
`create_time` (inclusively); hence items created on the end date strictly
after its first instant are dropped, items created before the start date are
dropped, and with neither bound configured the list is returned unchanged. -/
theorem C9_filter_by_time_inclusive_timestamps (parse_ts : String → Int)
    (start_time end_time : String) (l : List AwemeData) :
    filter_by_time parse_ts start_time end_time l =
      if start_time = "" ∧ end_time = "" then l
      else l.filter (in_time_range parse_ts start_time end_time) := by
  unfold filter_by_time
  by_cases h : start_time = "" ∧ end_time = ""
  · simp [h]
  · simp [h, filter_by_time_loop_eq]

/-! ## Media kind and asset URL resolution
(`BaseDownloader._detect_media_type`, `_collect_image_urls`,
`_build_no_watermark_url`) -/

/-- `BaseDownloader._detect_media_type`: gallery when the item carries a
truthy image-post payload or a truthy image list, video otherwise. -/
def detect_media_type (a : AwemeData) : String :=
  if a.image_post_info.isSome ∨ a.images ≠ [] then "gallery" else "video"

/-- The collection loop of `_collect_image_urls`: first URL of each entry
whose `url_list` is truthy, in listing order. -/
def collect_image_urls_loop : List ImageItem → List String
  | [] => []
  | it :: rest =>
    match it.url_list with
    | [] => collect_image_urls_loop rest
    | u :: _ => u :: collect_image_urls_loop rest

/-- `BaseDownloader._collect_image_urls`: the image-post payload's `images`
takes precedence over the top-level `images` when truthy. -/
def collect_image_urls (a : AwemeData) : List String :=
  let images :=
    match a.image_post_info with
    | some imgs => if imgs ≠ [] then imgs else a.images
    | none => a.images
  collect_image_urls_loop images

/-- The signing collaborator of the API client, plus the client's default
User-Agent (headers are modelled throughout by their User-Agent component,
the only part `_download_headers` varies). -/
structure SignEnv where
  sign_url : String → String × String
  build_signed_path : String → List (String × String) → String × String
  default_ua : String

/-- The watermark-preference ordering of `_build_no_watermark_url`: Python's
stable sort by the key `0 if "watermark=0" in u else 1` over the truthy
candidates, i.e. the `watermark=0`-marked candidates first, each group in
original order. -/
def sorted_candidates (l : List String) : List String :=
  let candidates := l.filter (fun c => !(c == ""))
  candidates.filter (fun c => strContains c "watermark=0")
    ++ candidates.filter (fun c => !strContains c "watermark=0")

/-- The candidate scan loop of `_build_no_watermark_url`: return on the first
candidate whose authority is on the platform's own domain — signing it unless
it already carries `X-Bogus=` — while remembering the last off-domain
candidate as fallback. -/
def candidate_scan (env : SignEnv) :
    List String → Option String → Option (String × String) × Option String
  | [], fb => (none, fb)
  | c :: rest, fb =>
    if strEndsWith (netlocOf c) "douyin.com" then
      if !strContains c "X-Bogus=" then (some (env.sign_url c), fb)
      else (some (c, env.default_ua), fb)
    else candidate_scan env rest (some c)

/-- `play_addr.get("uri") or video.get("vid") or download_addr.get("uri")`. -/
def video_fallback_uri (a : AwemeData) : String :=
  if a.video_uri ≠ "" then a.video_uri
  else if a.video_vid ≠ "" then a.video_vid
  else a.video_download_uri

/-- The fixed parameters of the signed play-request fallback. -/
def play_request_params (uri : String) : List (String × String) :=
  [("video_id", uri), ("ratio", "1080p"), ("line", "0"),
   ("is_play_url", "1"), ("watermark", "0"), ("source", "PackSourceEnum_PUBLISH")]

/-- `BaseDownloader._build_no_watermark_url`: scan the preference-ordered
candidates; failing that, build a signed play request from the item's
internal video reference; failing that, use the remembered off-domain
fallback candidate; else resolution fails. -/
def build_no_watermark_url (env : SignEnv) (a : AwemeData) :
    Option (String × String) :=
  match candidate_scan env (sorted_candidates a.video_url_list) none with
  | (some r, _) => some r
  | (none, fb) =>
    let uri := video_fallback_uri a
    if uri ≠ "" then
      some (env.build_signed_path "/aweme/v1/play/" (play_request_params uri))
    else
      match fb with
      | some c => some (c, env.default_ua)
      | none => none

/-- C7: with candidates `[u1, u2]` where `u1` is marked watermark-free and
`u2` is not, `u1` on the platform's own domain without the `X-Bogus` auth
parameter, resolution returns the signed variant of `u1` with the signing
call's client identity, never `u2`; a same-domain candidate already carrying
the auth parameter is returned unmodified with the default identity; and in
general the scan order puts every watermark-free-marked candidate before
every unmarked one. -/
theorem C7_watermark_preference (env : SignEnv) (a b : AwemeData) (u1 u2 v : String)
    (h1 : strContains u1 "watermark=0" = true)
    (h2 : strContains u2 "watermark=0" = false)
    (hdom : strEndsWith (netlocOf u1) "douyin.com" = true)
    (hx : strContains u1 "X-Bogus=" = false)
    (hu1 : u1 ≠ "") (hu2 : u2 ≠ "")
    (ha : a.video_url_list = [u1, u2])
    (hvd : strEndsWith (netlocOf v) "douyin.com" = true)
    (hvx : strContains v "X-Bogus=" = true)
    (hv : v ≠ "")
    (hb : b.video_url_list = [v]) :
    build_no_watermark_url env a = some (env.sign_url u1)
    ∧ build_no_watermark_url env b = some (v, env.default_ua)
    ∧ ∀ l : List String, ∃ l1 l2, sorted_candidates l = l1 ++ l2
        ∧ (∀ u ∈ l1, strContains u "watermark=0" = true)
        ∧ (∀ u ∈ l2, strContains u "watermark=0" = false) := by
  refine ⟨?_, ?_, ?_⟩
  · simp only [build_no_watermark_url, sorted_candidates, ha]
    have hfil : List.filter (fun c => !(c == "")) [u1, u2] = [u1, u2] := by
      have hb1 : (u1 == "") = false := beq_eq_false_iff_ne.mpr hu1
      have hb2 : (u2 == "") = false := beq_eq_false_iff_ne.mpr hu2
      simp [List.filter, hb1, hb2]
    rw [hfil]
    simp only [List.filter, h1, h2]
    simp only [candidate_scan, hdom, hx]
    simp
  · simp only [build_no_watermark_url, sorted_candidates, hb]
    have hfil : List.filter (fun c => !(c == "")) [v] = [v] := by
      have hbv : (v == "") = false := beq_eq_false_iff_ne.mpr hv
      simp [List.filter, hbv]
    rw [hfil]
    cases hm : strContains v "watermark=0" <;>
      simp only [List.filter, hm] <;>
      simp only [candidate_scan, hvd, hvx] <;> simp
  · intro l
    refine ⟨(l.filter (fun c => !(c == ""))).filter (fun c => strContains c "watermark=0"),
      (l.filter (fun c => !(c == ""))).filter (fun c => !strContains c "watermark=0"),
      rfl, ?_, ?_⟩
    · intro u hu
      exact (List.mem_filter.mp hu).2
    · intro u hu
      simpa using (List.mem_filter.mp hu).2

/-- Witness for C7 at concrete URLs and a concrete signing oracle. -/
theorem C7_watermark_preference_witness :
    build_no_watermark_url
        ⟨fun u => (u ++ "&X-Bogus=sig", "ua-signed"), fun p _ => (p, "ua-path"), "ua-default"⟩
        { video_url_list :=
            ["https://v26.douyin.com/video/?watermark=0",
             "https://cdn.example.com/video/?watermark=1"] }
      = some ("https://v26.douyin.com/video/?watermark=0&X-Bogus=sig", "ua-signed")
    ∧ build_no_watermark_url
        ⟨fun u => (u ++ "&X-Bogus=sig", "ua-signed"), fun p _ => (p, "ua-path"), "ua-default"⟩
        { video_url_list := ["https://api.douyin.com/video/?X-Bogus=abc"] }
      = some ("https://api.douyin.com/video/?X-Bogus=abc", "ua-default") := by
  have h := C7_watermark_preference
    ⟨fun u => (u ++ "&X-Bogus=sig", "ua-signed"), fun p _ => (p, "ua-path"), "ua-default"⟩
    { video_url_list :=
        ["https://v26.douyin.com/video/?watermark=0",
         "https://cdn.example.com/video/?watermark=1"] }
    { video_url_list := ["https://api.douyin.com/video/?X-Bogus=abc"] }
    "https://v26.douyin.com/video/?watermark=0"
    "https://cdn.example.com/video/?watermark=1"
    "https://api.douyin.com/video/?X-Bogus=abc"
    (by decide) (by decide) (by decide) (by decide) (by decide) (by decide) rfl
    (by decide) (by decide) (by decide) rfl
  exact ⟨h.1, h.2.1⟩

/-! ## Per-item asset acquisition (`BaseDownloader._download_aweme_assets`)

The function is modelled down to its observable outcome: the success flag
and the in-memory local-presence set.  Each `_download_with_retry` call is
the oracle `fetch` applied to the asset's URL (retry policy included);
file-name formatting, the manifest record, the database row and the
transcript step never influence either observable and are out of scope. -/

/-- External collaborators and configuration of one asset-acquisition call:
`fetch u` is the outcome of `_download_with_retry` on URL `u`, the Booleans
are the `cover`/`music`/`avatar`/`json` configuration toggles, and
`json_save_ok` the metadata writer's outcome. -/
structure AssetEnv where
  sign : SignEnv
  fetch : String → Bool
  cover : Bool
  music : Bool
  avatar : Bool
  json_enabled : Bool
  json_save_ok : Bool

/-- The gallery loop of `_download_aweme_assets`: fetch every image in
listing order, aborting the whole item on the first failure; on success the
accumulated downloaded files. -/
def gallery_download_loop (env : AssetEnv) :
    List String → List String → Option (List String)
  | [], files => some files
  | u :: rest, files =>
    if env.fetch u then gallery_download_loop env rest (files ++ [u])
    else none

/-- The video branch of `_download_aweme_assets`: resolve the primary URL
(`none` on resolution failure), require its fetch, then attempt the optional
cover and music sidecars, whose failures only omit the file. -/
def video_required_downloads (env : AssetEnv) (a : AwemeData) :
    Option (List String) :=
  match build_no_watermark_url env.sign a with
  | none => none
  | some (video_url, _ua) =>
    if env.fetch video_url then
      let files := [video_url]
      let files := if env.cover ∧ a.cover_url ≠ "" then
          (if env.fetch a.cover_url then files ++ [a.cover_url] else files)
        else files
      let files := if env.music ∧ a.music_url ≠ "" then
          (if env.fetch a.music_url then files ++ [a.music_url] else files)
        else files
      some files
    else none

/-- The gallery branch of `_download_aweme_assets`: fail when no image URL
is collectable, else run the image loop. -/
def gallery_required_downloads (env : AssetEnv) (a : AwemeData) :
    Option (List String) :=
  match collect_image_urls a with
  | [] => none
  | urls => gallery_download_loop env urls []

/-- The media-kind dispatch of `_download_aweme_assets`: video branch,
gallery branch, or the "Unsupported media type" failure. -/
def required_downloads (env : AssetEnv) (a : AwemeData) : Option (List String) :=
  let media_type := detect_media_type a
  if media_type = "video" then video_required_downloads env a
  else if media_type = "gallery" then gallery_required_downloads env a
  else none

/-- `BaseDownloader._download_aweme_assets`: reject a falsy identifier,
dispatch on the media kind, fail when the required assets fail, otherwise
attempt the optional avatar and metadata sidecars and mark the identifier
locally downloaded.  Returns the success flag and the local index after the
call. -/
def download_aweme_assets (env : AssetEnv) (a : AwemeData)
    (st : Option (List String)) : Bool × Option (List String) :=
  if a.aweme_id = "" then (false, st)
  else
    match required_downloads env a with
    | none => (false, st)
    | some files =>
      let files := if env.avatar ∧ a.avatar_url ≠ "" then
          (if env.fetch a.avatar_url then files ++ [a.avatar_url] else files)
        else files
      let _downloaded := if env.json_enabled ∧ env.json_save_ok
          then files ++ ["metadata.json"] else files
      (true, mark_local_aweme_downloaded st a.aweme_id)

theorem gallery_download_loop_isSome (env : AssetEnv) (urls : List String) :
    ∀ files, (gallery_download_loop env urls files).isSome = true ↔
      ∀ u ∈ urls, env.fetch u = true := by
  induction urls with
  | nil => intro files; simp [gallery_download_loop]
  | cons u rest ih =>
    intro files
    by_cases h : env.fetch u
    · simp [gallery_download_loop, h, ih]
    · simp [gallery_download_loop, h]

theorem detect_media_type_cases (a : AwemeData) :
    detect_media_type a = "gallery" ∨ detect_media_type a = "video" := by
  unfold detect_media_type
  by_cases h : a.image_post_info.isSome = true ∨ a.images ≠ [] <;> simp [h]

/-- C6: `_download_aweme_assets` succeeds iff every required asset is
fetched: for a video item the resolved primary video URL, for a gallery item
every collected image URL in listing order (and at least one exists).  The
right-hand side mentions no optional sidecar, so a cover, music, avatar or
metadata failure never changes the outcome, while a required failure always
fails the item. -/
theorem C6_success_iff_required_assets (env : AssetEnv) (a : AwemeData)
    (st : Option (List String)) :
    (download_aweme_assets env a st).1 = true ↔
      a.aweme_id ≠ ""
      ∧ ((detect_media_type a = "video"
            ∧ ∃ r, build_no_watermark_url env.sign a = some r ∧ env.fetch r.1 = true)
        ∨ (detect_media_type a = "gallery"
            ∧ collect_image_urls a ≠ []
            ∧ ∀ u ∈ collect_image_urls a, env.fetch u = true)) := by
  by_cases hid : a.aweme_id = ""
  · simp [download_aweme_assets, hid]
  · rcases detect_media_type_cases a with hg | hv
    · -- gallery item
      have hreq : required_downloads env a = gallery_required_downloads env a := by
        simp [required_downloads, hg]
      cases hurls : collect_image_urls a with
      | nil =>
        have : gallery_required_downloads env a = none := by
          simp [gallery_required_downloads, hurls]
        simp [download_aweme_assets, hid, hreq, this, hg, hurls]
      | cons u rest =>
        have hloop : gallery_required_downloads env a =
            gallery_download_loop env (u :: rest) [] := by
          simp [gallery_required_downloads, hurls]
        have hiff := gallery_download_loop_isSome env (u :: rest) []
        cases hr : gallery_download_loop env (u :: rest) [] with
        | none =>
          rw [hr] at hiff
          simp only [Option.isSome_none, Bool.false_eq_true, false_iff] at hiff
          push_neg at hiff
          obtain ⟨x, hx, hfx⟩ := hiff
          have hrhs : ¬ ∀ y ∈ collect_image_urls a, env.fetch y = true := by
            rw [hurls]
            intro hall
            exact hfx (hall x hx)
          simp [download_aweme_assets, hid, hreq, hloop, hr, hg, hrhs]
          intro hu
          rcases List.mem_cons.mp hx with rfl | hx'
          · exact absurd hu hfx
          · exact ⟨x, hx', Bool.eq_false_iff.mpr hfx⟩
        | some files =>
          rw [hr] at hiff
          simp only [Option.isSome_some, true_iff] at hiff
          have hrhs : ∀ y ∈ collect_image_urls a, env.fetch y = true := by
            rw [hurls]; exact hiff
          simp [download_aweme_assets, hid, hreq, hloop, hr, hg, hurls, hrhs]
          exact fun y hy => hiff y (List.mem_cons_of_mem u hy)
    · -- video item
      have hreq : required_downloads env a = video_required_downloads env a := by
        simp [required_downloads, hv]
      cases hres : build_no_watermark_url env.sign a with
      | none =>
        have : video_required_downloads env a = none := by
          simp [video_required_downloads, hres]
        simp [download_aweme_assets, hid, hreq, this, hv, hres]
      | some r =>
        obtain ⟨rurl, rua⟩ := r
        by_cases hf : env.fetch rurl = true
        · have : ∃ files, video_required_downloads env a = some files := by
            simp [video_required_downloads, hres, hf]
          obtain ⟨files, hfiles⟩ := this
          simp [download_aweme_assets, hid, hreq, hfiles, hv, hres, hf]
        · have : video_required_downloads env a = none := by
            simp only [video_required_downloads, hres]
            simp [hf]
          simp [download_aweme_assets, hid, hreq, this, hv, hres]
          exact Bool.eq_false_iff.mpr hf

/-- C10: `_detect_media_type` answers exactly `"gallery"` or `"video"`, so
the "Unsupported media type" failure branch of `_download_aweme_assets` is
unreachable: the media-kind dispatch always takes the video or the gallery
required-asset path. -/
theorem C10_media_type_total (a : AwemeData) :
    (detect_media_type a = "gallery" ∨ detect_media_type a = "video")
    ∧ ∀ env : AssetEnv, required_downloads env a =
        if detect_media_type a = "video" then video_required_downloads env a
        else gallery_required_downloads env a := by
  refine ⟨detect_media_type_cases a, fun env => ?_⟩
  rcases detect_media_type_cases a with h | h <;> simp [required_downloads, h]

/-- C8: once `_download_aweme_assets` returns `True`, the identifier is a
member of the in-memory local-presence set, `_is_locally_downloaded` returns
`True` on it, and `_should_download` returns `False` on it whatever the
persistent store contains — so a duplicate of the identifier later in the
same run is skipped and cannot be downloaded (hence recorded) again. -/
theorem C8_success_marks_local (env : AssetEnv) (a : AwemeData)
    (st : Option (List String)) (scan : List String)
    (h : (download_aweme_assets env a st).1 = true) :
    (∃ idx, (download_aweme_assets env a st).2 = some idx ∧ a.aweme_id ∈ idx)
    ∧ (is_locally_downloaded scan (download_aweme_assets env a st).2 a.aweme_id).1 = true
    ∧ ∀ db, (should_download db scan (download_aweme_assets env a st).2 a.aweme_id).1
        = false := by
  by_cases hid : a.aweme_id = ""
  · rw [download_aweme_assets] at h
    simp [hid] at h
  · have hsnd : (download_aweme_assets env a st).2
        = mark_local_aweme_downloaded st a.aweme_id := by
      rw [download_aweme_assets] at h ⊢
      simp only [hid, if_false, ite_false] at h ⊢
      cases hr : required_downloads env a <;> simp [hr] at h ⊢
    have hmem : ∃ idx, mark_local_aweme_downloaded st a.aweme_id = some idx
        ∧ a.aweme_id ∈ idx := by
      unfold mark_local_aweme_downloaded
      cases st with
      | none =>
        exact ⟨List.insert a.aweme_id [], by simp [hid], List.mem_insert_self _ _⟩
      | some idx =>
        exact ⟨List.insert a.aweme_id idx, by simp [hid], List.mem_insert_self _ _⟩
    obtain ⟨idx, hidx, hin⟩ := hmem
    have hloc : (is_locally_downloaded scan
        (mark_local_aweme_downloaded st a.aweme_id) a.aweme_id).1 = true := by
      rw [hidx]
      unfold is_locally_downloaded
      simp only [hid, if_false, ite_false]
      simpa [List.contains] using List.elem_eq_true_of_mem hin
    refine ⟨⟨idx, by rw [hsnd]; exact hidx, hin⟩, by rw [hsnd]; exact hloc, fun db => ?_⟩
    rw [hsnd]
    unfold should_download
    cases hdb : db_is_downloaded db a.aweme_id <;> simp [hdb, hloc]

/-- Concrete successful gallery item for the C8 witness. -/
def awemeW : AwemeData :=
  { aweme_id := "7000000000000000001", images := [{ url_list := ["https://p3.img/one.jpg"] }] }

/-- Concrete environment for the C8 witness: every fetch succeeds. -/
def assetEnvW : AssetEnv :=
  ⟨⟨fun u => (u, "ua"), fun p _ => (p, "ua"), "ua"⟩, fun _ => true,
    false, false, false, false, false⟩

/-- Witness for C8: a concrete successful download, after which the dedup
pre-check skips the identifier both with and without a database row. -/
theorem C8_success_marks_local_witness :
    (should_download (some ["7000000000000000001"]) []
        (download_aweme_assets assetEnvW awemeW none).2 "7000000000000000001").1 = false
    ∧ (should_download none []
        (download_aweme_assets assetEnvW awemeW none).2 "7000000000000000001").1 = false := by
  have h := C8_success_marks_local assetEnvW awemeW none [] (by decide)
  exact ⟨h.2.2 (some ["7000000000000000001"]), h.2.2 none⟩

/-! ## Pagination (`UserDownloader._download_user_post`, the `while has_more`
loop) -/

/-- One listing-API response of `get_user_post`, restricted to the fields the
loop reads.  `status_code = none` models a missing key (Python `.get` →
`None`, which never equals `0`); `aweme_list`, `has_more` and `max_cursor`
hold the defaulted lookups. -/
structure PostPage where
  aweme_list : List AwemeData
  status_code : Option Int
  has_more : Bool
  max_cursor : Int
deriving DecidableEq

/-- Pagination configuration: `increase.post`, the database's
latest-timestamp answer (`none` = no database or no row; `0` is equally
falsy in the source's guard), and `number.post`. -/
structure PageCfg where
  increase_enabled : Bool
  latest_time : Option Int
  number_limit : Int
deriving DecidableEq

/-- Python truthiness of the `latest_time` value. -/
def latest_truthy : Option Int → Bool
  | none => false
  | some t => !(t == 0)

/-- The `while has_more` loop of `_download_user_post`, in trace form:
`responses` lists the successive `get_user_post` answers in request order
(`none` = a falsy response, on which the source breaks; an exhausted list
continues as falsy responses).  Returns the accumulated `aweme_list` and the
`pagination_restricted` flag, which the source sets only at the empty-page
break. -/
def download_user_post_loop (cfg : PageCfg) :
    List (Option PostPage) → Int → List AwemeData → List AwemeData × Bool
  | [], _, acc => (acc, false)
  | none :: _, _, acc => (acc, false)
  | some data :: rest, request_cursor, acc =>
    if data.aweme_list = [] then
      (acc, decide (request_cursor ≠ 0) && decide (data.status_code = some 0))
    else
      let incremental := cfg.increase_enabled && latest_truthy cfg.latest_time
      let t := cfg.latest_time.getD 0
      let new_items :=
        if incremental then data.aweme_list.filter (fun x => decide (x.create_time > t))
        else data.aweme_list
      let acc2 := acc ++ new_items
      if incremental = true ∧ new_items.length < data.aweme_list.length then
        (acc2, false)
      else if data.has_more = true ∧ data.max_cursor = request_cursor then
        (acc2, false)
      else if cfg.number_limit > 0 ∧ (acc2.length : Int) ≥ cfg.number_limit then
        (acc2.take cfg.number_limit.toNat, false)
      else if data.has_more then
        download_user_post_loop cfg rest data.max_cursor acc2
      else (acc2, false)

/-- C2: an empty-page response terminates the loop with the accumulator
unchanged, and sets the restricted flag exactly when the request cursor was
non-zero and the response's status code equals 0 — so an empty page at
cursor 0, or with a non-zero (or absent) status code, terminates without
setting it. -/
theorem C2_restricted_iff (cfg : PageCfg) (rest : List (Option PostPage))
    (request_cursor : Int) (acc : List AwemeData) (data : PostPage)
    (h : data.aweme_list = []) :
    (download_user_post_loop cfg (some data :: rest) request_cursor acc).1 = acc
    ∧ ((download_user_post_loop cfg (some data :: rest) request_cursor acc).2 = true
        ↔ request_cursor ≠ 0 ∧ data.status_code = some 0) := by
  simp [download_user_post_loop, h]

/-- Witness for C2: a concrete empty page with `status_code = 0` sets the
flag at cursor 20 and does not at cursor 0. -/
theorem C2_restricted_iff_witness :
    (download_user_post_loop ⟨false, none, 0⟩ [some ⟨[], some 0, true, 20⟩] 20 []).2 = true
    ∧ (download_user_post_loop ⟨false, none, 0⟩ [some ⟨[], some 0, true, 0⟩] 0 []).2
        = false := by
  have h1 := C2_restricted_iff ⟨false, none, 0⟩ [] 20 [] ⟨[], some 0, true, 20⟩ rfl
  have h2 := C2_restricted_iff ⟨false, none, 0⟩ [] 0 [] ⟨[], some 0, true, 0⟩ rfl
  refine ⟨h1.2.mpr ⟨by norm_num, rfl⟩, ?_⟩
  exact Bool.eq_false_iff.mpr fun ht => (h2.2.mp ht).1 rfl

/-- C4: with incremental mode on and latest timestamp `T` known, a page with
item timestamps `[T+5, T+2, T-1]` contributes exactly its first two items
and terminates the loop; and the loop terminates on any page containing an
item with timestamp exactly `T` (no later response is consumed). -/
theorem C4_incremental_cutoff (cfg : PageCfg) (T : Int)
    (hinc : cfg.increase_enabled = true) (hT : T ≠ 0)
    (hlat : cfg.latest_time = some T)
    (a1 a2 a3 : AwemeData) (h1 : a1.create_time = T + 5)
    (h2 : a2.create_time = T + 2) (h3 : a3.create_time = T - 1)
    (sc : Option Int) (hm : Bool) (mc request_cursor : Int)
    (rest : List (Option PostPage)) (acc : List AwemeData) :
    download_user_post_loop cfg (some ⟨[a1, a2, a3], sc, hm, mc⟩ :: rest)
        request_cursor acc = (acc ++ [a1, a2], false)
    ∧ ∀ (page : PostPage) (x : AwemeData), x ∈ page.aweme_list →
        x.create_time = T →
        download_user_post_loop cfg (some page :: rest) request_cursor acc
          = download_user_post_loop cfg [some page] request_cursor acc := by
  have hlt : latest_truthy (some T) = true := by
    simp [latest_truthy, hT]
  constructor
  · have hf1 : decide (a1.create_time > T) = true := by simp [h1]
    have hf2 : decide (a2.create_time > T) = true := by simp [h2]
    have hf3 : decide (a3.create_time > T) = false := by simp [h3]
    have hfil : List.filter (fun x => decide (x.create_time > T)) [a1, a2, a3]
        = [a1, a2] := by
      simp only [List.filter, hf1, hf2, hf3]
    simp [download_user_post_loop, hinc, hlt, hlat, hfil]
  · intro page x hx hxT
    by_cases hemp : page.aweme_list = []
    · simp [download_user_post_loop, hemp]
    · have hlen : (page.aweme_list.filter (fun y => decide (T < y.create_time))).length
          < page.aweme_list.length := by
        rw [List.length_filter_lt_length_iff_exists]
        refine ⟨x, hx, ?_⟩
        simp [hxT]
      simp [download_user_post_loop, hemp, hinc, hlt, hlat, hlen]

/-- Witness for C4 at `T = 10` and concrete items. -/
theorem C4_incremental_cutoff_witness :
    download_user_post_loop ⟨true, some 10, 0⟩
        [some ⟨[{ create_time := 15 }, { create_time := 12 }, { create_time := 9 }],
          some 0, true, 50⟩] 0 []
      = ([{ create_time := 15 }, { create_time := 12 }], false) := by
  have h := C4_incremental_cutoff ⟨true, some 10, 0⟩ 10 rfl (by norm_num) rfl
      { create_time := 15 } { create_time := 12 } { create_time := 9 } rfl rfl rfl
      (some 0) true 50 0 [] []
  simpa using h.1

/-- C5: two consecutively fetched pages that both report `has_more` and both
return the same next-cursor `m` (the first page was requested at `c ≠ m`, so
it did not already stop the loop) terminate the loop immediately after the
second page: each page's items are appended exactly once, no later response
is consumed, and when the accumulator and the two pages share no items the
collected list stays duplicate-free. -/
theorem C5_stagnation (cfg : PageCfg) (p1 p2 : PostPage) (m c : Int)
    (hinc : cfg.increase_enabled = false) (hlim : cfg.number_limit = 0)
    (hne1 : p1.aweme_list ≠ []) (hne2 : p2.aweme_list ≠ [])
    (hhm1 : p1.has_more = true) (hhm2 : p2.has_more = true)
    (hm1 : p1.max_cursor = m) (hm2 : p2.max_cursor = m) (hcm : c ≠ m)
    (rest : List (Option PostPage)) (acc : List AwemeData) :
    download_user_post_loop cfg (some p1 :: some p2 :: rest) c acc
      = (acc ++ p1.aweme_list ++ p2.aweme_list, false)
    ∧ (acc.Nodup → p1.aweme_list.Nodup → p2.aweme_list.Nodup →
        acc.Disjoint p1.aweme_list → acc.Disjoint p2.aweme_list →
        p1.aweme_list.Disjoint p2.aweme_list →
        (download_user_post_loop cfg (some p1 :: some p2 :: rest) c acc).1.Nodup) := by
  have hmc : ¬ (m = c) := fun hh => hcm hh.symm
  have heq : download_user_post_loop cfg (some p1 :: some p2 :: rest) c acc
      = (acc ++ p1.aweme_list ++ p2.aweme_list, false) := by
    have step1 : download_user_post_loop cfg (some p1 :: some p2 :: rest) c acc
        = download_user_post_loop cfg (some p2 :: rest) m (acc ++ p1.aweme_list) := by
      simp [download_user_post_loop, hne1, hinc, hlim, hhm1, hm1, hmc]
    rw [step1]
    simp [download_user_post_loop, hne2, hinc, hlim, hhm2, hm2]
  refine ⟨heq, fun hnacc hn1 hn2 hd1 hd2 hd12 => ?_⟩
  rw [heq]
  simp only [List.nodup_append, List.disjoint_append_left]
  exact ⟨⟨hnacc, hn1, hd1⟩, hn2, hd2, hd12⟩

/-- Witness for C5: two concrete single-item pages returning cursor 7. -/
theorem C5_stagnation_witness :
    download_user_post_loop ⟨false, none, 0⟩
        [some ⟨[{ aweme_id := "7000000000000000001" }], none, true, 7⟩,
         some ⟨[{ aweme_id := "7000000000000000002" }], none, true, 7⟩] 0 []
      = ([{ aweme_id := "7000000000000000001" },
          { aweme_id := "7000000000000000002" }], false) := by
  have h := C5_stagnation ⟨false, none, 0⟩
      ⟨[{ aweme_id := "7000000000000000001" }], none, true, 7⟩
      ⟨[{ aweme_id := "7000000000000000002" }], none, true, 7⟩ 7 0
      rfl rfl (by simp) (by simp) rfl rfl rfl rfl (by norm_num) [] []
  simpa using h.1

/-! ## Browser fallback reconciliation
(`UserDownloader._recover_user_post_with_browser`) -/

/-- External collaborators and configuration of one fallback run:
`browser_fallback.enabled`, `number.post`, the identifier list the browser
collector returned (a collector exception instead leaves the list untouched
and is outside this model), the collector's inline-scraped details
(`none` = absent or falsy), and the detail API (`get_video_detail`). -/
structure RecoverEnv where
  enabled : Bool
  number_limit : Int
  browser_ids : List String
  browser_items : String → Option AwemeData
  api_detail : String → Option AwemeData

/-- The `existing_ids` set comprehension: identifiers already present in the
API-derived list (truthy ones only). -/
def existing_ids (l : List AwemeData) : List String :=
  (l.map (fun a => a.aweme_id)).filter (fun id => !(id == ""))

/-- `missing_ids`: the browser identifiers not already present, in
browser-collector order. -/
def missing_ids (browser_ids : List String) (l : List AwemeData) : List String :=
  browser_ids.filter (fun id => !(existing_ids l).contains id)

/-- Detail acquisition for one missing identifier: reuse the inline-scraped
item when present, else ask the detail API. -/
def fetch_detail (env : RecoverEnv) (id : String) : Option AwemeData :=
  match env.browser_items id with
  | some d => some d
  | none => env.api_detail id

/-- The per-identifier loop of `_recover_user_post_with_browser`: stop once
a configured cap is reached, skip an identifier on detail failure, skip it
when the detail's author identifier is present and differs from the target
(cross-author guard), else append the detail. -/
def recover_loop (env : RecoverEnv) (sec_uid : String) :
    List String → List AwemeData → List AwemeData
  | [], acc => acc
  | id :: rest, acc =>
    if env.number_limit > 0 ∧ (acc.length : Int) ≥ env.number_limit then acc
    else
      match fetch_detail env id with
      | none => recover_loop env sec_uid rest acc
      | some d =>
        if d.author_sec_uid ≠ "" ∧ d.author_sec_uid ≠ sec_uid then
          recover_loop env sec_uid rest acc
        else recover_loop env sec_uid rest (acc ++ [d])

/-- `UserDownloader._recover_user_post_with_browser`: no-op when fallback is
disabled, when a configured target count is already met, when the collector
returned no identifier, or when nothing is missing; otherwise run the
recovery loop over the missing identifiers. -/
def recover_user_post_with_browser (env : RecoverEnv) (sec_uid : String)
    (aweme_list : List AwemeData) : List AwemeData :=
  if env.enabled = false then aweme_list
  else if env.number_limit ≠ 0 ∧ (aweme_list.length : Int) ≥ env.number_limit then
    aweme_list
  else if env.browser_ids = [] then aweme_list
  else
    match missing_ids env.browser_ids aweme_list with
    | [] => aweme_list
    | mid :: mrest => recover_loop env sec_uid (mid :: mrest) aweme_list

/-- The per-identifier outcome the loop computes when no cap is configured:
the fetched or reused detail, dropped when it fails to arrive or names a
different author. -/
def validated_detail (env : RecoverEnv) (sec_uid : String) (id : String) :
    Option AwemeData :=
  match fetch_detail env id with
  | none => none
  | some d =>
    if d.author_sec_uid ≠ "" ∧ d.author_sec_uid ≠ sec_uid then none
    else some d

theorem recover_loop_no_cap (env : RecoverEnv) (sec_uid : String)
    (hlim : env.number_limit = 0) (ids : List String) :
    ∀ acc, recover_loop env sec_uid ids acc
      = acc ++ ids.filterMap (validated_detail env sec_uid) := by
  induction ids with
  | nil => intro acc; simp [recover_loop]
  | cons id rest ih =>
    intro acc
    have hcap : ¬(env.number_limit > 0 ∧ (acc.length : Int) ≥ env.number_limit) := by
      simp [hlim]
    cases hd : fetch_detail env id with
    | none =>
      simp [recover_loop, hcap, hd, List.filterMap_cons, validated_detail, ih]
    | some d =>
      by_cases ha : d.author_sec_uid ≠ "" ∧ d.author_sec_uid ≠ sec_uid
      · simp [recover_loop, hcap, hd, List.filterMap_cons, validated_detail, ha, ih]
      · simp [recover_loop, hcap, hd, List.filterMap_cons, validated_detail, ha, ih]

/-- C3: with fallback enabled and no configured cap, the reconciliation
fetches exactly the browser identifiers minus those already present in the
API-derived list, in browser-collector order; a fetched or reused detail
whose author identifier is present and differs from the target is discarded
rather than appended; and the validated items are appended after the
API-derived prefix, which is returned unchanged — never reordered or
deduplicated. -/
theorem C3_fallback_reconciliation (env : RecoverEnv) (sec_uid : String)
    (aweme_list : List AwemeData)
    (hen : env.enabled = true) (hlim : env.number_limit = 0) :
    recover_user_post_with_browser env sec_uid aweme_list
      = aweme_list
        ++ (missing_ids env.browser_ids aweme_list).filterMap
            (validated_detail env sec_uid)
    ∧ missing_ids env.browser_ids aweme_list
        = env.browser_ids.filter (fun id => !(existing_ids aweme_list).contains id)
    ∧ ∀ id d, fetch_detail env id = some d → d.author_sec_uid ≠ "" →
        d.author_sec_uid ≠ sec_uid → validated_detail env sec_uid id = none := by
  refine ⟨?_, rfl, ?_⟩
  · unfold recover_user_post_with_browser
    rw [if_neg (by simp [hen]), if_neg (by simp [hlim])]
    by_cases hb : env.browser_ids = []
    · rw [if_pos hb]
      simp [missing_ids, hb]
    · rw [if_neg hb]
      cases hmiss : missing_ids env.browser_ids aweme_list with
      | nil => simp [hmiss]
      | cons mid mrest =>
        exact recover_loop_no_cap env sec_uid hlim (mid :: mrest) aweme_list
  · intro id d hd hne hneq
    simp [validated_detail, hd, hne, hneq]

/-- Target-author detail used by the C3 witness. -/
def detailC : AwemeData := { aweme_id := "C", author_sec_uid := "target" }

/-- Cross-author detail used by the C3 witness. -/
def detailD : AwemeData := { aweme_id := "D", author_sec_uid := "other" }

/-- Fallback environment of the C3 witness: browser list `[A, C, D]`, `C`
inline-scraped, `D` only fetchable via the detail API. -/
def recoverEnvW : RecoverEnv :=
  ⟨true, 0, ["A", "C", "D"],
    fun id => if id = "C" then some detailC else none,
    fun id => if id = "D" then some detailD else none⟩

/-- Witness for C3, the spec's own merge example: API list `{A, B}`, browser
list `{A, C, D}`, `D` with a mismatched author ⇒ final list `{A, B, C}`. -/
theorem C3_fallback_reconciliation_witness :
    recover_user_post_with_browser recoverEnvW "target"
        [{ aweme_id := "A" }, { aweme_id := "B" }]
      = [{ aweme_id := "A" }, { aweme_id := "B" }, detailC] := by
  have h := C3_fallback_reconciliation recoverEnvW "target"
      [{ aweme_id := "A" }, { aweme_id := "B" }] rfl rfl
  rw [h.1]
  decide

end Douyin
